import Mathlib

/-!
roblox-friend-tracker: OAuth token handoff and friends lookup.

A shallow embedding of `backend/src/routes/oauth.js` and
`backend/src/services/roblox.js`.

* The module-level `tokenStore` (a JavaScript `Map`) is an insertion-ordered
  association list that is passed explicitly through every handler.
* `Date.now()`, `randomBytes`, `process.env`, the parsed request and the
  upstream `fetch` are inputs of the handlers.
* A handler returns the response it sends together with the new store.
-/

namespace FriendTracker

/-! ## Values of `req.query` and `req.cookies` -/

/-- A parsed query or cookie value: a string, or a non-string value (an array
or object produced by the parser), kept with the text `String(v)` gives. -/
inductive QueryValue where
  | str (s : String)
  | nonString (rendered : String)
  deriving DecidableEq, Repr

/-- JavaScript truthiness of a possibly `undefined` value: `undefined` and the
empty string are falsy, arrays and objects are truthy. -/
def truthy : Option QueryValue → Bool
  | none => false
  | some (.str s) => decide (s ≠ "")
  | some (.nonString _) => true

/-- The strict comparison `a === b`: strings compare by content, two distinct
arrays or objects are never equal. -/
def strictEq : Option QueryValue → Option QueryValue → Bool
  | none, none => true
  | some (.str a), some (.str b) => decide (a = b)
  | _, _ => false

/-- The string a value is coerced to when it is put into `URLSearchParams`. -/
def QueryValue.render : QueryValue → String
  | .str s => s
  | .nonString r => r

/-! ## Random identifiers -/

/-- Two lowercase hexadecimal characters of one byte, as `Buffer.toString('hex')`
writes it. -/
def hexByte (b : Fin 256) : List Char :=
  [Nat.digitChar (b.val / 16), Nat.digitChar (b.val % 16)]

/-- The text of `buf.toString('hex')`. -/
def toHex (buf : List (Fin 256)) : String :=
  String.mk (buf.flatMap hexByte)

/-- The function `generateState`: `randomBytes(16).toString('hex')`, with the 16
random bytes given. -/
def generateState (randomBytes : Fin 16 → Fin 256) : String :=
  toHex (List.ofFn randomBytes)

/-- The function `generateId`: `randomBytes(12).toString('hex')`, with the 12
random bytes given. -/
def generateId (randomBytes : Fin 12 → Fin 256) : String :=
  toHex (List.ofFn randomBytes)

/-! ## The token store -/

/-- The value `{ tokens, expiresAt }` kept in the store. -/
structure Entry (τ : Type) where
  tokens : τ
  expiresAt : Nat
  deriving DecidableEq, Repr

/-- The `Map` from id to entry, in insertion order. -/
abbrev TokenStore (τ : Type) := List (String × Entry τ)

namespace tokenStore

variable {τ : Type}

/-- The call `tokenStore.get(id)`; `none` is `undefined`. -/
def get : TokenStore τ → String → Option (Entry τ)
  | [], _ => none
  | (k, v) :: rest, id => if k = id then some v else get rest id

/-- The call `tokenStore.set(id, entry)`: an existing key keeps its place and
takes the new value, a new key is appended. -/
def set : TokenStore τ → String → Entry τ → TokenStore τ
  | [], id, e => [(id, e)]
  | (k, v) :: rest, id, e => if k = id then (k, e) :: rest else (k, v) :: set rest id e

/-- The call `tokenStore.delete(id)`. -/
def delete : TokenStore τ → String → TokenStore τ
  | [], _ => []
  | (k, v) :: rest, id => if k = id then delete rest id else (k, v) :: delete rest id

/-- The property `tokenStore.size`. -/
def size (store : TokenStore τ) : Nat := store.length

end tokenStore

/-! ## Responses -/

/-- What a handler sends. -/
inductive Body (τ : Type) where
  | text (s : String)
  | error (msg : String)
  | tokens (t : τ)
  | html (s : String)
  | redirect (url : String)
  deriving DecidableEq, Repr

/-- A cookie set with `res.cookie(name, value, { httpOnly, sameSite })`. -/
structure Cookie where
  name : String
  value : String
  httpOnly : Bool
  sameSite : String
  deriving DecidableEq, Repr

/-- An HTTP response: status, body and the cookies set on it. -/
structure Response (τ : Type) where
  status : Nat
  body : Body τ
  cookies : List Cookie := []
  deriving DecidableEq, Repr

variable {τ : Type}

/-! ## `GET /token/:id` -/

/-- The handler of `router.get('/token/:id')` at time `now` (`Date.now()`). -/
def tokenRoute (store : TokenStore τ) (id : String) (now : Nat) :
    Response τ × TokenStore τ :=
  if id = "" then (⟨400, .error "Missing id", []⟩, store)
  else
    match tokenStore.get store id with
    | none => (⟨404, .error "Token not found or expired", []⟩, store)
    | some entry =>
      if now > entry.expiresAt then
        (⟨410, .error "Token expired", []⟩, tokenStore.delete store id)
      else
        (⟨200, .tokens entry.tokens, []⟩, tokenStore.delete store id)

/-! ## `GET /start` -/

/-- The query of a request to `/start`; `none` is an absent parameter. -/
structure StartRequest where
  client_id : Option QueryValue
  redirect_uri : Option QueryValue
  scope : Option QueryValue
  deriving DecidableEq, Repr

/-- The text a possibly `undefined` value is coerced to. -/
def renderValue : Option QueryValue → String
  | none => "undefined"
  | some v => v.render

/-- The entries of the `URLSearchParams` built by `/start`. -/
def authorizeParams (req : StartRequest) (state : String) : List (String × String) :=
  [("response_type", "code"),
   ("client_id", renderValue req.client_id),
   ("redirect_uri", renderValue req.redirect_uri),
   ("scope", if truthy req.scope then renderValue req.scope else "openid profile"),
   ("state", state)]

/-- The handler of `router.get('/start')`. `randomBytes` are the bytes drawn by
`generateState`, `serialize` is `URLSearchParams.prototype.toString`. -/
def start (req : StartRequest) (randomBytes : Fin 16 → Fin 256)
    (serialize : List (String × String) → String) : Response τ :=
  if !truthy req.client_id || !truthy req.redirect_uri then
    ⟨400, .text "Missing client_id or redirect_uri", []⟩
  else
    let state := generateState randomBytes
    let authorizeUrl :=
      "https://apis.roblox.com/oauth/v1/authorize?" ++ serialize (authorizeParams req state)
    ⟨302, .redirect authorizeUrl, [⟨"oauth_state", state, true, "lax"⟩]⟩

/-! ## `GET /callback` -/

/-- The parts of a request to `/callback` the handler reads: the query
parameters `code` and `state`, and `req.cookies` (absent when no cookie
middleware ran) with its `oauth_state` member. -/
structure CallbackRequest where
  code : Option QueryValue
  state : Option QueryValue
  cookies : Option (Option QueryValue)
  deriving DecidableEq, Repr

/-- The three variables read from `process.env`. -/
structure Env where
  OAUTH_CLIENT_ID : Option String
  OAUTH_CLIENT_SECRET : Option String
  OAUTH_REDIRECT_URI : Option String
  deriving DecidableEq, Repr

/-- Truthiness of an environment variable: set and not empty. -/
def envTruthy : Option String → Bool
  | none => false
  | some s => decide (s ≠ "")

/-- A request made with `fetch`. -/
structure HttpRequest where
  url : String
  method : String
  headers : List (String × String)
  body : List (String × String)
  deriving DecidableEq, Repr

/-- What `fetch` gives back: a rejection, or a response with its `ok` flag, the
result of `text()` and the result of `json()` (`none` when reading throws). -/
inductive FetchResult (τ : Type) where
  | rejected
  | response (ok : Bool) (text : Option String) (json : Option τ)
  deriving DecidableEq, Repr

/-- The token exchange request of the callback. -/
def tokenExchangeRequest (code clientId clientSecret redirectUri : String) : HttpRequest :=
  { url := "https://apis.roblox.com/oauth/v1/token"
    method := "POST"
    headers := [("Content-Type", "application/x-www-form-urlencoded")]
    body := [("grant_type", "authorization_code"), ("code", code),
             ("redirect_uri", redirectUri), ("client_id", clientId),
             ("client_secret", clientSecret)] }

/-- The bridge page sent on success; `id` is spliced into the script. -/
def bridgePage (id : String) : String :=
  "\n      <!doctype html>\n      <html>\n      <head><meta charset=\"utf-8\"><title>OAuth Complete</title></head>\n      <body>\n      <script>\n        (function() \x7b\n          try \x7b\n            const payload = \x7b auth_id: '"
  ++ id ++
  "' \x7d;\n            if (window.opener && typeof window.opener.postMessage === 'function') \x7b\n              window.opener.postMessage(payload, '*');\n            \x7d\n          \x7d catch (e) \x7b\n            // ignore\n          \x7d\n          // close the popup after short delay\n          setTimeout(() => window.close(), 500);\n        \x7d)();\n      </script>\n      OAuth complete. You can close this window.\n      </body>\n      </html>"

/-- What the callback did: the response, the store afterwards, the requests sent
upstream and the lines written with `console.error`. -/
structure Handled (τ : Type) where
  response : Response τ
  store : TokenStore τ
  sent : List HttpRequest
  logged : List String
  deriving DecidableEq, Repr

/-- The handler of `router.get('/callback')`. `randomBytes` are the bytes drawn
by `generateId` and `now` is `Date.now()` at the time the entry is stored. -/
def callback (req : CallbackRequest) (env : Env) (fetch : HttpRequest → FetchResult τ)
    (randomBytes : Fin 12 → Fin 256) (now : Nat) (store : TokenStore τ) : Handled τ :=
  let cookieState := req.cookies.join
  if !truthy req.code || !truthy req.state || !truthy cookieState
      || !strictEq req.state cookieState then
    ⟨⟨400, .text "Invalid state or missing code", []⟩, store, [], []⟩
  else
    let clientId := env.OAUTH_CLIENT_ID
    let clientSecret := env.OAUTH_CLIENT_SECRET
    let redirectUri := env.OAUTH_REDIRECT_URI
    if !envTruthy clientId || !envTruthy clientSecret || !envTruthy redirectUri then
      ⟨⟨500, .text "OAuth server not configured", []⟩, store, [], []⟩
    else
      let request := tokenExchangeRequest (renderValue req.code) (clientId.getD "")
        (clientSecret.getD "") (redirectUri.getD "")
      match fetch request with
      | .rejected =>
        ⟨⟨500, .text "Server error", []⟩, store, [request], ["OAuth callback error"]⟩
      | .response ok text json =>
        if !ok then
          match text with
          | none =>
            ⟨⟨500, .text "Server error", []⟩, store, [request], ["OAuth callback error"]⟩
          | some t =>
            ⟨⟨502, .text "Token exchange failed", []⟩, store, [request],
              ["Token exchange failed: " ++ t]⟩
        else
          match json with
          | none =>
            ⟨⟨500, .text "Server error", []⟩, store, [request], ["OAuth callback error"]⟩
          | some tokens =>
            let id := generateId randomBytes
            let expiresAt := now + 90 * 1000
            ⟨⟨200, .html (bridgePage id), []⟩, tokenStore.set store id ⟨tokens, expiresAt⟩,
              [request], []⟩

/-! ## Histories of store operations -/

/-- One operation on the store: a `GET /token/:id` handled at time `now`, or an
entry stored by a successful callback. -/
inductive Event (τ : Type) where
  | tokenRequest (id : String) (now : Nat)
  | stored (id : String) (entry : Entry τ)
  deriving DecidableEq, Repr

/-- The store after one operation. -/
def Event.apply : Event τ → TokenStore τ → TokenStore τ
  | .tokenRequest id now, store => (tokenRoute store id now).2
  | .stored id entry, store => tokenStore.set store id entry

/-- The store after a history of operations, oldest first. -/
def runEvents (events : List (Event τ)) (store : TokenStore τ) : TokenStore τ :=
  events.foldl (fun s e => e.apply s) store

/-- The operation stores an entry under `id`. -/
def Event.puts (id : String) : Event τ → Bool
  | .tokenRequest _ _ => false
  | .stored k _ => decide (k = id)

/-- The operation is a retrieval of `id` or stores an entry under `id`. -/
def Event.concerns (id : String) : Event τ → Bool
  | .tokenRequest k _ => decide (k = id)
  | .stored k _ => decide (k = id)

/-- The requests `GET /token/:id` for one id, handled one after the other at
the times `times`: the responses in the order of handling, and the store at the
end. The handler has no `await`, so each request is handled in one piece and a
run of concurrent requests is a sequence of whole handler runs. -/
def takes (store : TokenStore τ) (id : String) : List Nat → List (Response τ) × TokenStore τ
  | [] => ([], store)
  | now :: rest =>
    ((tokenRoute store id now).1 :: (takes (tokenRoute store id now).2 id rest).1,
      (takes (tokenRoute store id now).2 id rest).2)

/-! ## `services/roblox.js` -/

/-- A number as `parseInt` can return it: `NaN`, an infinity, or a finite
float64 that holds the integer `v`. -/
inductive JSNumber where
  | nan
  | infinity (negative : Bool)
  | int (v : Int)
  deriving DecidableEq, Repr

/-- The constant `Number.MAX_SAFE_INTEGER`, `2^53 - 1`. -/
def maxSafeInteger : Nat := 9007199254740991

/-- The number of binary digits of `m`, for `m < 2 ^ fuel`. -/
def bitLength : Nat → Nat → Nat
  | 0, _ => 0
  | fuel + 1, m => if m = 0 then 0 else bitLength fuel (m / 2) + 1

/-- The float64 nearest to the natural number `m` (round to nearest, ties to
even), given as the integer it holds; `none` is `Infinity`. Below `2^53` every
integer is a float64; above, `m` is cut to 53 binary digits. -/
def toFloat64 (m : Nat) : Option Nat :=
  if m < 2 ^ 53 then some m
  else if 2 ^ 1024 ≤ m then none
  else
    let e := bitLength 1024 m - 53
    let q := m / 2 ^ e
    let r := m % 2 ^ e
    let half := 2 ^ (e - 1)
    let q' := if half < r ∨ (r = half ∧ q % 2 = 1) then q + 1 else q
    if 2 ^ 1024 ≤ q' * 2 ^ e then none else some (q' * 2 ^ e)

/-- White space and line terminators, stripped by `parseInt` from the start of
its input. -/
def isStrWhiteSpace (c : Char) : Bool :=
  decide (c.toNat ∈ [0x9, 0xA, 0xB, 0xC, 0xD, 0x20, 0xA0, 0x1680, 0x2028, 0x2029, 0x202F,
    0x205F, 0x3000, 0xFEFF]) || (decide (0x2000 ≤ c.toNat) && decide (c.toNat ≤ 0x200A))

/-- The value of a run of decimal digits. -/
def digitsValue (digits : List Char) : Nat :=
  digits.foldl (fun acc c => acc * 10 + (c.toNat - 48)) 0

/-- The builtin `parseInt(s, 10)`: skips leading white space, reads an optional
sign, then the longest run of decimal digits; `NaN` when that run is empty,
otherwise the float64 nearest to the signed value of the run, as Node computes
it. -/
def parseInt (s : String) : JSNumber :=
  let trimmed := s.data.dropWhile isStrWhiteSpace
  let negative := decide (trimmed.head? = some '-')
  let unsigned :=
    if trimmed.head? = some '-' ∨ trimmed.head? = some '+' then trimmed.tail else trimmed
  let digits := unsigned.takeWhile Char.isDigit
  if digits = [] then .nan
  else
    match toFloat64 (digitsValue digits) with
    | none => .infinity negative
    | some d => .int (if negative then -(d : Int) else (d : Int))

/-- The builtin `Number.isFinite`. -/
def isFinite : JSNumber → Bool
  | .nan => false
  | .infinity _ => false
  | .int _ => true

/-- The test `n <= 0`; false for `NaN`. -/
def leZero : JSNumber → Bool
  | .nan => false
  | .infinity negative => negative
  | .int v => decide (v ≤ 0)

/-- The `k`-digit decimal nearest to the float64 `x` that reads back as `x`,
when there is one: the multiples of `10 ^ (n - k)` just below and just above
`x`, where `n` is the number of digits of `x`. -/
def candidate (x : Nat) (k : Nat) : Option Nat :=
  let p := 10 ^ ((Nat.toDigits 10 x).length - k)
  let lo := x / p * p
  let hi := lo + p
  if toFloat64 lo = some x then
    if toFloat64 hi = some x then
      if x - lo < hi - x then some lo
      else if hi - x < x - lo then some hi
      else if lo / p % 2 = 0 then some lo else some hi
    else some lo
  else if toFloat64 hi = some x then some hi
  else none

/-- The decimal with the fewest significant digits that reads back as the
float64 `x`; 17 digits always suffice. -/
def shortest (x : Nat) : Nat :=
  ((List.range 17).findSome? (fun i => candidate x (i + 1))).getD x

/-- The digits without their trailing zeros. -/
def stripTrailingZeros (ds : List Char) : List Char :=
  (ds.reverse.dropWhile (fun c => c = '0')).reverse

/-- The exponent form `d.ddde+x` of a decimal of more than 21 digits. -/
def exponentText (ds : List Char) : List Char :=
  match stripTrailingZeros ds with
  | [] => ds
  | d :: [] => d :: 'e' :: '+' :: Nat.toDigits 10 (ds.length - 1)
  | d :: more => d :: '.' :: more ++ 'e' :: '+' :: Nat.toDigits 10 (ds.length - 1)

/-- The text of the decimal `c`: its digits up to 21 of them, the exponent form
beyond. -/
def formatNat (c : Nat) : String :=
  if (Nat.toDigits 10 c).length ≤ 21 then String.mk (Nat.toDigits 10 c)
  else String.mk (exponentText (Nat.toDigits 10 c))

/-- The text `String(x)` of a float64 that holds the natural number `x`: below
`2^53` its decimal digits, above them the shortest decimal that reads back as
`x`. -/
def natText (x : Nat) : String :=
  if x < 2 ^ 53 then toString x else formatNat (shortest x)

/-- The characters the text of a number is made of. -/
def numberChar (c : Char) : Prop := c.isDigit = true ∨ c = '.' ∨ c = 'e' ∨ c = '+'

/-- The text of a number inside a template literal. -/
def numberToString : JSNumber → String
  | .nan => "NaN"
  | .infinity negative => if negative then "-Infinity" else "Infinity"
  | .int (.ofNat x) => natText x
  | .int (.negSucc x) => "-" ++ natText (x + 1)

/-- The errors `getFriendsForUserId` throws. -/
inductive FriendsError where
  | invalidUserId
  | failedToFetch (statusText : String)
  | typeError
  | rejected
  deriving DecidableEq, Repr

/-- The message of a thrown error; a rejection of `fetch` or `json()` and the
`TypeError` of reading a member of `null` carry the message of the runtime. -/
def FriendsError.message : FriendsError → Option String
  | .invalidUserId => some "Invalid userId: must be a positive number"
  | .failedToFetch statusText => some ("Failed to fetch friends: " ++ statusText)
  | .typeError => none
  | .rejected => none

/-- The value `json()` resolves to, as far as the function reads it: `null`, a
value whose `data` is not an array, or a value whose `data` is the array
`data`. -/
inductive FriendsJson (τ : Type) where
  | null
  | noArray
  | withData (data : List τ)
  deriving Repr

/-- What `fetch(url)` gives back in `getFriendsForUserId`: a rejection, or a
response with `ok`, `statusText` and the result of `json()` (`none` when it
rejects). -/
inductive FriendsFetch (τ : Type) where
  | rejected
  | response (ok : Bool) (statusText : String) (json : Option (FriendsJson τ))
  deriving Repr

/-- The URLs requested by a call and what it returned or threw. -/
structure FriendsOutcome (τ : Type) where
  requested : List String
  result : Except FriendsError (List τ)

/-- The URL built from the parsed id. -/
def friendsUrl (numericUserId : JSNumber) : String :=
  "https://friends.roblox.com/v1/users/" ++ numberToString numericUserId ++ "/friends"

/-- The function `getFriendsForUserId`. -/
def getFriendsForUserId (userId : String) (fetch : String → FriendsFetch τ) :
    FriendsOutcome τ :=
  let numericUserId := parseInt userId
  if !isFinite numericUserId || leZero numericUserId then
    ⟨[], .error .invalidUserId⟩
  else
    let url := friendsUrl numericUserId
    match fetch url with
    | .rejected => ⟨[url], .error .rejected⟩
    | .response ok statusText json =>
      if !ok then ⟨[url], .error (.failedToFetch statusText)⟩
      else
        match json with
        | none => ⟨[url], .error .rejected⟩
        | some .null => ⟨[url], .error .typeError⟩
        | some .noArray => ⟨[url], .ok []⟩
        | some (.withData data) => ⟨[url], .ok data⟩

/-- The condition of the first `if` of the callback: the anti-forgery check
fails. -/
def stateCheckFails (req : CallbackRequest) : Bool :=
  !truthy req.code || !truthy req.state || !truthy req.cookies.join
    || !strictEq req.state req.cookies.join

/-- Every id `generateId` can return. -/
@[irreducible] def idSpace : Finset String := Finset.univ.image generateId

/-- Every state token `generateState` can return. -/
@[irreducible] def stateSpace : Finset String := Finset.univ.image generateState

/-! ## Sample inputs -/

/-- A callback request whose `state` equals the cookie. -/
def sampleCallback : CallbackRequest :=
  ⟨some (.str "c0de"), some (.str "5a"), some (some (.str "5a"))⟩

/-- A complete configuration. -/
def sampleEnv : Env := ⟨some "client", some "secret", some "https://app.example/cb"⟩

/-- An upstream that answers every exchange with the bundle `7`. -/
def sampleFetch : HttpRequest → FetchResult Nat := fun _ => .response true none (some 7)

/-- Twelve random bytes, all `0xab`. -/
def sampleBytes : Fin 12 → Fin 256 := fun _ => 171

/-- A history that neither retrieves nor stores the id of `sampleBytes`. -/
def sampleBefore : List (Event Nat) := [.stored "zz" ⟨1, 5⟩, .tokenRequest "zz" 3]

/-- A history that retrieves the id of `sampleBytes` again and stores another id. -/
def sampleAfter : List (Event Nat) :=
  [.tokenRequest "abababababababababababab" 7, .stored "zz" ⟨2, 9⟩]

/-- An upstream that answers every friends request with `{ data: [5] }`. -/
def sampleFriendsFetch : String → FriendsFetch Nat :=
  fun _ => .response true "OK" (some (.withData [5]))

/-! ## Lemmas on the store -/

namespace tokenStore

theorem get_delete_self (store : TokenStore τ) (id : String) :
    get (delete store id) id = none := by
  induction store with
  | nil => rfl
  | cons kv rest ih =>
    obtain ⟨k, v⟩ := kv
    by_cases h : k = id
    · simpa [delete, h] using ih
    · simpa [delete, get, h] using ih

theorem get_delete_of_ne (store : TokenStore τ) {id k : String} (hk : id ≠ k) :
    get (delete store id) k = get store k := by
  induction store with
  | nil => rfl
  | cons kv rest ih =>
    obtain ⟨k', v⟩ := kv
    by_cases h : k' = id
    · have hk' : k' ≠ k := fun e => hk (h ▸ e)
      simpa [delete, get, h, hk, hk'] using ih
    · by_cases h' : k' = k
      · subst h'; simp [delete, get, h]
      · simpa [delete, get, h, h'] using ih

theorem get_delete_of_absent (store : TokenStore τ) (id : String) {k : String}
    (hk : get store k = none) : get (delete store id) k = none := by
  by_cases h : id = k
  · subst h; exact get_delete_self store id
  · rw [get_delete_of_ne store h]; exact hk

theorem get_set_self (store : TokenStore τ) (id : String) (e : Entry τ) :
    get (set store id e) id = some e := by
  induction store with
  | nil => simp [set, get]
  | cons kv rest ih =>
    obtain ⟨k, v⟩ := kv
    by_cases h : k = id
    · simp [set, get, h]
    · simpa [set, get, h] using ih

theorem get_set_of_ne (store : TokenStore τ) {id k : String} (e : Entry τ) (hk : id ≠ k) :
    get (set store id e) k = get store k := by
  induction store with
  | nil => simp [set, get, hk]
  | cons kv rest ih =>
    obtain ⟨k', v⟩ := kv
    by_cases h : k' = id
    · have hk' : k' ≠ k := fun e => hk (h ▸ e)
      simp [set, get, h, hk]
    · by_cases h' : k' = k
      · subst h'; simp [set, get, h]
      · simpa [set, get, h, h'] using ih

theorem size_set_of_absent (store : TokenStore τ) (id : String) (e : Entry τ)
    (habs : get store id = none) : size (set store id e) = size store + 1 := by
  induction store with
  | nil => rfl
  | cons kv rest ih =>
    obtain ⟨k, v⟩ := kv
    by_cases h : k = id
    · simp [get, h] at habs
    · have hrest : get rest id = none := by simpa [get, h] using habs
      have := ih hrest
      simp only [size] at this
      simp [set, size, h, this]

theorem size_set_of_present (store : TokenStore τ) (id : String) (e old : Entry τ)
    (hpres : get store id = some old) : size (set store id e) = size store := by
  induction store with
  | nil => simp [get] at hpres
  | cons kv rest ih =>
    obtain ⟨k, v⟩ := kv
    by_cases h : k = id
    · simp [set, size, h]
    · have hrest : get rest id = some old := by simpa [get, h] using hpres
      have := ih hrest
      simp only [size] at this
      simp [set, size, h, this]

end tokenStore

/-! ## Lemmas on the token route -/

theorem tokenRoute_of_absent (store : TokenStore τ) {id : String} (now : Nat)
    (hid : id ≠ "") (habs : tokenStore.get store id = none) :
    tokenRoute store id now = (⟨404, .error "Token not found or expired", []⟩, store) := by
  simp [tokenRoute, hid, habs]

theorem tokenRoute_of_live (store : TokenStore τ) {id : String} {entry : Entry τ} {now : Nat}
    (hid : id ≠ "") (hget : tokenStore.get store id = some entry)
    (hnow : now ≤ entry.expiresAt) :
    tokenRoute store id now
      = (⟨200, .tokens entry.tokens, []⟩, tokenStore.delete store id) := by
  simp [tokenRoute, hid, hget, Nat.not_lt.mpr hnow]

theorem tokenRoute_of_expired (store : TokenStore τ) {id : String} {entry : Entry τ}
    {now : Nat} (hid : id ≠ "") (hget : tokenStore.get store id = some entry)
    (hnow : now > entry.expiresAt) :
    tokenRoute store id now
      = (⟨410, .error "Token expired", []⟩, tokenStore.delete store id) := by
  simp [tokenRoute, hid, hget, hnow]

/-- The store after a token request is the store before, or the store before
with the requested id deleted. -/
theorem tokenRoute_store (store : TokenStore τ) (id : String) (now : Nat) :
    (tokenRoute store id now).2 = store
      ∨ (tokenRoute store id now).2 = tokenStore.delete store id := by
  unfold tokenRoute
  split
  · exact Or.inl rfl
  · split
    · exact Or.inl rfl
    · split
      · exact Or.inr rfl
      · exact Or.inr rfl

theorem tokenRoute_store_of_ne (store : TokenStore τ) {id k : String} (now : Nat)
    (hk : id ≠ k) :
    tokenStore.get (tokenRoute store id now).2 k = tokenStore.get store k := by
  rcases tokenRoute_store store id now with h | h
  · rw [h]
  · rw [h, tokenStore.get_delete_of_ne store hk]

theorem tokenRoute_store_of_absent (store : TokenStore τ) (id : String) {k : String}
    (now : Nat) (hk : tokenStore.get store k = none) :
    tokenStore.get (tokenRoute store id now).2 k = none := by
  rcases tokenRoute_store store id now with h | h
  · rw [h]; exact hk
  · rw [h]; exact tokenStore.get_delete_of_absent store id hk

/-! ## Lemmas on histories -/

theorem Event.apply_of_not_concerns (e : Event τ) (store : TokenStore τ) {id : String}
    (h : e.concerns id = false) :
    tokenStore.get (e.apply store) id = tokenStore.get store id := by
  cases e with
  | tokenRequest k now =>
    have hk : k ≠ id := by simpa [Event.concerns] using h
    exact tokenRoute_store_of_ne store now hk
  | stored k entry =>
    have hk : k ≠ id := by simpa [Event.concerns] using h
    exact tokenStore.get_set_of_ne store entry hk

theorem Event.apply_of_not_puts (e : Event τ) (store : TokenStore τ) {id : String}
    (h : e.puts id = false) (habs : tokenStore.get store id = none) :
    tokenStore.get (e.apply store) id = none := by
  cases e with
  | tokenRequest k now => exact tokenRoute_store_of_absent store k now habs
  | stored k entry =>
    have hk : k ≠ id := by simpa [Event.puts] using h
    simpa [Event.apply, tokenStore.get_set_of_ne store entry hk] using habs

theorem runEvents_of_not_concerns (events : List (Event τ)) (store : TokenStore τ)
    {id : String} (h : ∀ e ∈ events, e.concerns id = false) :
    tokenStore.get (runEvents events store) id = tokenStore.get store id := by
  induction events generalizing store with
  | nil => rfl
  | cons e rest ih =>
    have hrest : ∀ e' ∈ rest, e'.concerns id = false :=
      fun e' he' => h e' (List.mem_cons_of_mem _ he')
    have hstep := ih (e.apply store) hrest
    have he := Event.apply_of_not_concerns e store (h e (List.mem_cons_self _ _))
    simpa [runEvents, List.foldl_cons, he] using hstep

theorem runEvents_of_not_puts (events : List (Event τ)) (store : TokenStore τ)
    {id : String} (h : ∀ e ∈ events, e.puts id = false)
    (habs : tokenStore.get store id = none) :
    tokenStore.get (runEvents events store) id = none := by
  induction events generalizing store with
  | nil => exact habs
  | cons e rest ih =>
    have hrest : ∀ e' ∈ rest, e'.puts id = false :=
      fun e' he' => h e' (List.mem_cons_of_mem _ he')
    have he := Event.apply_of_not_puts e store (h e (List.mem_cons_self _ _)) habs
    have hstep := ih (e.apply store) hrest he
    simpa [runEvents, List.foldl_cons] using hstep

/-! ## Lemmas on the identifiers -/

theorem digitChar_inj : ∀ a b : Fin 16, Nat.digitChar a.val = Nat.digitChar b.val → a = b := by
  decide

theorem hexByte_inj {a b : Fin 256} (h : hexByte a = hexByte b) : a = b := by
  simp only [hexByte, List.cons.injEq, and_true] at h
  have hhi := digitChar_inj ⟨a.val / 16, by omega⟩ ⟨b.val / 16, by omega⟩ h.1
  have hlo := digitChar_inj ⟨a.val % 16, by omega⟩ ⟨b.val % 16, by omega⟩ h.2
  simp only [Fin.mk.injEq] at hhi hlo
  apply Fin.ext
  omega

theorem flatMap_hexByte_inj : ∀ x y : List (Fin 256),
    x.flatMap hexByte = y.flatMap hexByte → x = y
  | [], [], _ => rfl
  | [], b :: y, h => by simp [List.flatMap, hexByte] at h
  | a :: x, [], h => by simp [List.flatMap, hexByte] at h
  | a :: x, b :: y, h => by
    simp only [List.flatMap_cons, hexByte, List.cons_append, List.nil_append,
      List.cons.injEq] at h
    obtain ⟨h1, h2, h3⟩ := h
    have hab : a = b := hexByte_inj (by simp [hexByte, h1, h2])
    rw [hab, flatMap_hexByte_inj x y h3]

theorem toHex_injective : Function.Injective toHex := by
  intro x y h
  exact flatMap_hexByte_inj x y (congrArg String.data h)

theorem toHex_length (buf : List (Fin 256)) : (toHex buf).length = 2 * buf.length := by
  induction buf with
  | nil => rfl
  | cons b rest ih =>
    simp only [toHex, String.length, List.flatMap_cons, hexByte, List.cons_append,
      List.nil_append, List.length_cons] at ih ⊢
    omega

theorem generateId_injective : Function.Injective generateId :=
  fun _ _ h => List.ofFn_injective (toHex_injective h)

theorem generateState_injective : Function.Injective generateState :=
  fun _ _ h => List.ofFn_injective (toHex_injective h)

theorem generateId_length (randomBytes : Fin 12 → Fin 256) :
    (generateId randomBytes).length = 24 := by
  simp [generateId, toHex_length]

theorem generateState_length (randomBytes : Fin 16 → Fin 256) :
    (generateState randomBytes).length = 32 := by
  simp [generateState, toHex_length]

theorem generateId_ne_empty (randomBytes : Fin 12 → Fin 256) :
    generateId randomBytes ≠ "" := by
  intro h
  have := generateId_length randomBytes
  rw [h] at this
  exact absurd this (by decide)

/-! ## Lemmas on the callback -/

theorem callback_of_check_fails (req : CallbackRequest) (env : Env)
    (fetch : HttpRequest → FetchResult τ) (randomBytes : Fin 12 → Fin 256) (now : Nat)
    (store : TokenStore τ) (h : stateCheckFails req = true) :
    callback req env fetch randomBytes now store
      = ⟨⟨400, .text "Invalid state or missing code", []⟩, store, [], []⟩ := by
  unfold stateCheckFails at h
  simp only [callback, h, if_true]

/-- Every path of the callback: the response status is 400, 500, 502 or 200,
the store is untouched unless the status is 200, and on 200 the store is the old
one with the upstream bundle set under the generated id. -/
theorem callback_cases (req : CallbackRequest) (env : Env)
    (fetch : HttpRequest → FetchResult τ) (randomBytes : Fin 12 → Fin 256) (now : Nat)
    (store : TokenStore τ) :
    ((callback req env fetch randomBytes now store).response.status = 400
        ∧ stateCheckFails req = true
        ∧ (callback req env fetch randomBytes now store).store = store
        ∧ (callback req env fetch randomBytes now store).sent = [])
    ∨ ((callback req env fetch randomBytes now store).response.status = 500
        ∧ stateCheckFails req = false
        ∧ (callback req env fetch randomBytes now store).store = store)
    ∨ ((callback req env fetch randomBytes now store).response.status = 502
        ∧ stateCheckFails req = false
        ∧ (callback req env fetch randomBytes now store).store = store)
    ∨ (stateCheckFails req = false ∧ ∃ bundle : τ,
        callback req env fetch randomBytes now store
          = ⟨⟨200, .html (bridgePage (generateId randomBytes)), []⟩,
              tokenStore.set store (generateId randomBytes) ⟨bundle, now + 90000⟩,
              [tokenExchangeRequest (renderValue req.code) (env.OAUTH_CLIENT_ID.getD "")
                (env.OAUTH_CLIENT_SECRET.getD "") (env.OAUTH_REDIRECT_URI.getD "")], []⟩
        ∧ ∃ text, fetch (tokenExchangeRequest (renderValue req.code)
            (env.OAUTH_CLIENT_ID.getD "") (env.OAUTH_CLIENT_SECRET.getD "")
            (env.OAUTH_REDIRECT_URI.getD "")) = .response true text (some bundle)) := by
  by_cases hc : stateCheckFails req = true
  · left
    rw [callback_of_check_fails req env fetch randomBytes now store hc]
    exact ⟨rfl, hc, rfl, rfl⟩
  · right
    have hc' : stateCheckFails req = false := by simpa using hc
    have hc2 := hc'
    unfold stateCheckFails at hc2
    by_cases he : (!envTruthy env.OAUTH_CLIENT_ID || !envTruthy env.OAUTH_CLIENT_SECRET
        || !envTruthy env.OAUTH_REDIRECT_URI) = true
    · left
      refine ⟨?_, hc', ?_⟩ <;>
        simp only [callback, hc2, he, if_true, Bool.false_eq_true, if_false]
    · have he' : (!envTruthy env.OAUTH_CLIENT_ID || !envTruthy env.OAUTH_CLIENT_SECRET
          || !envTruthy env.OAUTH_REDIRECT_URI) = false := by simpa using he
      cases hf : fetch (tokenExchangeRequest (renderValue req.code)
          (env.OAUTH_CLIENT_ID.getD "") (env.OAUTH_CLIENT_SECRET.getD "")
          (env.OAUTH_REDIRECT_URI.getD "")) with
      | rejected =>
        left
        refine ⟨?_, hc', ?_⟩ <;>
          simp only [callback, hc2, he', hf, Bool.false_eq_true, if_false, Bool.not_false,
            Bool.not_true, if_true]
      | response ok text json =>
        cases ok with
        | false =>
          cases text with
          | none =>
            left
            refine ⟨?_, hc', ?_⟩ <;>
          simp only [callback, hc2, he', hf, Bool.false_eq_true, if_false, Bool.not_false,
            Bool.not_true, if_true]
          | some t =>
            right; left
            refine ⟨?_, hc', ?_⟩ <;>
          simp only [callback, hc2, he', hf, Bool.false_eq_true, if_false, Bool.not_false,
            Bool.not_true, if_true]
        | true =>
          cases json with
          | none =>
            left
            refine ⟨?_, hc', ?_⟩ <;>
          simp only [callback, hc2, he', hf, Bool.false_eq_true, if_false, Bool.not_false,
            Bool.not_true, if_true]
          | some bundle =>
            right; right
            refine ⟨hc', bundle, ?_, text, rfl⟩
            simp only [callback, hc2, he', hf, Bool.false_eq_true, if_false, Bool.not_true]

/-! ## The token route: single use, expiry, unknown ids -/

/-- C1. Single-use retrieval. When the callback answered 200 at time `t0` it
stored the upstream bundle under the generated id with `expiresAt = t0 + 90000`.
After any history `before` with no retrieval and no new entry of that id, a
`GET /token/:id` at a time `now ≤ t0 + 90000` answers 200 with exactly that
bundle and deletes the entry; after any later history `after` that stores no
new entry under the id, a `GET /token/:id` at any time answers 404 and leaves
the store as it is. -/
theorem token_single_use (req : CallbackRequest) (env : Env)
    (fetch : HttpRequest → FetchResult τ) (randomBytes : Fin 12 → Fin 256) (t0 : Nat)
    (store0 : TokenStore τ) (before after : List (Event τ)) (now later : Nat)
    (hstored : (callback req env fetch randomBytes t0 store0).response.status = 200)
    (hbefore : ∀ e ∈ before, e.concerns (generateId randomBytes) = false)
    (hnow : now ≤ t0 + 90000)
    (hafter : ∀ e ∈ after, e.puts (generateId randomBytes) = false) :
    ∃ bundle : τ,
      (∃ text, fetch (tokenExchangeRequest (renderValue req.code)
        (env.OAUTH_CLIENT_ID.getD "") (env.OAUTH_CLIENT_SECRET.getD "")
        (env.OAUTH_REDIRECT_URI.getD "")) = .response true text (some bundle))
      ∧ tokenStore.get (callback req env fetch randomBytes t0 store0).store
          (generateId randomBytes) = some ⟨bundle, t0 + 90000⟩
      ∧ tokenRoute (runEvents before (callback req env fetch randomBytes t0 store0).store)
          (generateId randomBytes) now
        = (⟨200, .tokens bundle, []⟩,
            tokenStore.delete
              (runEvents before (callback req env fetch randomBytes t0 store0).store)
              (generateId randomBytes))
      ∧ tokenStore.get
          (tokenStore.delete
            (runEvents before (callback req env fetch randomBytes t0 store0).store)
            (generateId randomBytes))
          (generateId randomBytes) = none
      ∧ tokenRoute
          (runEvents after (tokenStore.delete
            (runEvents before (callback req env fetch randomBytes t0 store0).store)
            (generateId randomBytes)))
          (generateId randomBytes) later
        = (⟨404, .error "Token not found or expired", []⟩,
            runEvents after (tokenStore.delete
              (runEvents before (callback req env fetch randomBytes t0 store0).store)
              (generateId randomBytes))) := by
  rcases callback_cases req env fetch randomBytes t0 store0 with h | h | h | h
  · rw [h.1] at hstored; exact absurd hstored (by decide)
  · rw [h.1] at hstored; exact absurd hstored (by decide)
  · rw [h.1] at hstored; exact absurd hstored (by decide)
  · obtain ⟨_, bundle, hcb, text, hfetch⟩ := h
    have hid := generateId_ne_empty randomBytes
    have hget : tokenStore.get (callback req env fetch randomBytes t0 store0).store
        (generateId randomBytes) = some ⟨bundle, t0 + 90000⟩ := by
      rw [hcb]; exact tokenStore.get_set_self _ _ _
    have hget' : tokenStore.get
        (runEvents before (callback req env fetch randomBytes t0 store0).store)
        (generateId randomBytes) = some ⟨bundle, t0 + 90000⟩ := by
      rw [runEvents_of_not_concerns before _ hbefore]; exact hget
    have hgone := tokenStore.get_delete_self
      (runEvents before (callback req env fetch randomBytes t0 store0).store)
      (generateId randomBytes)
    exact ⟨bundle, ⟨text, hfetch⟩, hget, tokenRoute_of_live _ hid hget' hnow, hgone,
      tokenRoute_of_absent _ later hid (runEvents_of_not_puts after _ hafter hgone)⟩

theorem token_single_use_witness :
    (callback sampleCallback sampleEnv sampleFetch sampleBytes 1000 []).response.status = 200
      ∧ (∃ bundle : Nat,
        tokenRoute
            (runEvents sampleBefore
              (callback sampleCallback sampleEnv sampleFetch sampleBytes 1000 []).store)
            (generateId sampleBytes) 91000
          = (⟨200, .tokens bundle, []⟩,
              tokenStore.delete
                (runEvents sampleBefore
                  (callback sampleCallback sampleEnv sampleFetch sampleBytes 1000 []).store)
                (generateId sampleBytes))
        ∧ tokenRoute
            (runEvents sampleAfter (tokenStore.delete
              (runEvents sampleBefore
                (callback sampleCallback sampleEnv sampleFetch sampleBytes 1000 []).store)
              (generateId sampleBytes)))
            (generateId sampleBytes) 12
          = (⟨404, .error "Token not found or expired", []⟩,
              runEvents sampleAfter (tokenStore.delete
                (runEvents sampleBefore
                  (callback sampleCallback sampleEnv sampleFetch sampleBytes 1000 []).store)
                (generateId sampleBytes)))) :=
  ⟨by decide,
    (token_single_use sampleCallback sampleEnv sampleFetch sampleBytes 1000 []
      sampleBefore sampleAfter 91000 12 (by decide) (by decide) (by decide)
      (by decide)).imp (fun _ h => ⟨h.2.2.1, h.2.2.2.2⟩)⟩

/-- C2. Lazy expiry. For the entry the callback stored at time `t0`, after any
history `before` with no retrieval and no new entry of that id, a
`GET /token/:id` at a time `now > t0 + 90000` answers 410 (not the bundle) and
deletes the entry; after any later history `after` that stores no new entry
under the id, a `GET /token/:id` answers 404, so 410 is not reported again. -/
theorem token_lazy_expiry (req : CallbackRequest) (env : Env)
    (fetch : HttpRequest → FetchResult τ) (randomBytes : Fin 12 → Fin 256) (t0 : Nat)
    (store0 : TokenStore τ) (before after : List (Event τ)) (now later : Nat)
    (hstored : (callback req env fetch randomBytes t0 store0).response.status = 200)
    (hbefore : ∀ e ∈ before, e.concerns (generateId randomBytes) = false)
    (hnow : now > t0 + 90000)
    (hafter : ∀ e ∈ after, e.puts (generateId randomBytes) = false) :
    (∃ bundle : τ, tokenStore.get (callback req env fetch randomBytes t0 store0).store
        (generateId randomBytes) = some ⟨bundle, t0 + 90000⟩)
      ∧ tokenRoute (runEvents before (callback req env fetch randomBytes t0 store0).store)
          (generateId randomBytes) now
        = (⟨410, .error "Token expired", []⟩,
            tokenStore.delete
              (runEvents before (callback req env fetch randomBytes t0 store0).store)
              (generateId randomBytes))
      ∧ tokenStore.get
          (tokenStore.delete
            (runEvents before (callback req env fetch randomBytes t0 store0).store)
            (generateId randomBytes))
          (generateId randomBytes) = none
      ∧ tokenRoute
          (runEvents after (tokenStore.delete
            (runEvents before (callback req env fetch randomBytes t0 store0).store)
            (generateId randomBytes)))
          (generateId randomBytes) later
        = (⟨404, .error "Token not found or expired", []⟩,
            runEvents after (tokenStore.delete
              (runEvents before (callback req env fetch randomBytes t0 store0).store)
              (generateId randomBytes))) := by
  rcases callback_cases req env fetch randomBytes t0 store0 with h | h | h | h
  · rw [h.1] at hstored; exact absurd hstored (by decide)
  · rw [h.1] at hstored; exact absurd hstored (by decide)
  · rw [h.1] at hstored; exact absurd hstored (by decide)
  · obtain ⟨_, bundle, hcb, -⟩ := h
    have hid := generateId_ne_empty randomBytes
    have hget : tokenStore.get (callback req env fetch randomBytes t0 store0).store
        (generateId randomBytes) = some ⟨bundle, t0 + 90000⟩ := by
      rw [hcb]; exact tokenStore.get_set_self _ _ _
    have hget' : tokenStore.get
        (runEvents before (callback req env fetch randomBytes t0 store0).store)
        (generateId randomBytes) = some ⟨bundle, t0 + 90000⟩ := by
      rw [runEvents_of_not_concerns before _ hbefore]; exact hget
    have hgone := tokenStore.get_delete_self
      (runEvents before (callback req env fetch randomBytes t0 store0).store)
      (generateId randomBytes)
    exact ⟨⟨bundle, hget⟩, tokenRoute_of_expired _ hid hget' hnow, hgone,
      tokenRoute_of_absent _ later hid (runEvents_of_not_puts after _ hafter hgone)⟩

theorem token_lazy_expiry_witness :
    (callback sampleCallback sampleEnv sampleFetch sampleBytes 1000 []).response.status = 200
      ∧ tokenRoute
          (runEvents sampleBefore
            (callback sampleCallback sampleEnv sampleFetch sampleBytes 1000 []).store)
          (generateId sampleBytes) 91001
        = (⟨410, .error "Token expired", []⟩,
            tokenStore.delete
              (runEvents sampleBefore
                (callback sampleCallback sampleEnv sampleFetch sampleBytes 1000 []).store)
              (generateId sampleBytes))
      ∧ tokenRoute
          (runEvents sampleAfter (tokenStore.delete
            (runEvents sampleBefore
              (callback sampleCallback sampleEnv sampleFetch sampleBytes 1000 []).store)
            (generateId sampleBytes)))
          (generateId sampleBytes) 91002
        = (⟨404, .error "Token not found or expired", []⟩,
            runEvents sampleAfter (tokenStore.delete
              (runEvents sampleBefore
                (callback sampleCallback sampleEnv sampleFetch sampleBytes 1000 []).store)
              (generateId sampleBytes))) :=
  have h := token_lazy_expiry sampleCallback sampleEnv sampleFetch sampleBytes 1000 []
    sampleBefore sampleAfter 91001 91002 (by decide) (by decide) (by decide) (by decide)
  ⟨by decide, h.2.1, h.2.2.2⟩

/-- C3. Unknown id. For every store and every id bound by the route pattern
`/token/:id` (a non-empty path segment) that is not a key of the store,
`GET /token/:id` answers 404 at any time and returns the store unchanged. -/
theorem token_unknown_id (store : TokenStore τ) (id : String) (now : Nat)
    (hid : id ≠ "") (habsent : tokenStore.get store id = none) :
    tokenRoute store id now = (⟨404, .error "Token not found or expired", []⟩, store) :=
  tokenRoute_of_absent store now hid habsent

theorem token_unknown_id_witness :
    tokenRoute ([("zz", ⟨1, 5⟩)] : TokenStore Nat) "abababababababababababab" 3
      = (⟨404, .error "Token not found or expired", []⟩, [("zz", ⟨1, 5⟩)]) :=
  token_unknown_id [("zz", ⟨1, 5⟩)] "abababababababababababab" 3 (by decide) (by decide)

/-! ## Concurrent requests for one id -/

theorem takes_of_absent (store : TokenStore τ) {id : String} (times : List Nat)
    (hid : id ≠ "") (habs : tokenStore.get store id = none) :
    takes store id times
      = (List.replicate times.length ⟨404, .error "Token not found or expired", []⟩,
          store) := by
  induction times with
  | nil => rfl
  | cons t rest ih =>
    simp only [takes, tokenRoute_of_absent store t hid habs, ih, List.length_cons,
      List.replicate_succ]

/-- C9. Concurrent takes of a live id. The handler of `GET /token/:id` is
synchronous, so `n ≥ 1` concurrent requests for one id are handled as whole
handler runs in some order. For every store in which the id is present, every
list of `n` handling times at which the entry is unexpired and every order of
them, the request handled first answers 200 with the bundle and deletes the
entry, and all the other `n - 1` answer 404: exactly one response is the
bundle, and the store at the end is the first one with the id deleted. -/
theorem token_concurrent_takes (store : TokenStore τ) (id : String) (entry : Entry τ)
    (times order : List Nat)
    (hid : id ≠ "") (hlive : tokenStore.get store id = some entry)
    (hunexpired : ∀ t ∈ times, t ≤ entry.expiresAt) (hn : 1 ≤ times.length)
    (horder : order.Perm times) :
    (takes store id order).1
        = ⟨200, .tokens entry.tokens, []⟩
          :: List.replicate (times.length - 1) ⟨404, .error "Token not found or expired", []⟩
      ∧ (takes store id order).1.length = times.length
      ∧ (takes store id order).1.countP (fun r => r.status == 200) = 1
      ∧ (takes store id order).1.countP (fun r => r.status == 404) = times.length - 1
      ∧ (takes store id order).2 = tokenStore.delete store id
      ∧ tokenStore.get (takes store id order).2 id = none := by
  have hlen : order.length = times.length := horder.length_eq
  cases order with
  | nil => simp at hlen; omega
  | cons t rest =>
    have ht : t ≤ entry.expiresAt := hunexpired t (horder.subset (List.mem_cons_self _ _))
    have hrest : rest.length = times.length - 1 := by
      simp only [List.length_cons] at hlen; omega
    have hfirst := tokenRoute_of_live store hid hlive ht
    have hgone := tokenStore.get_delete_self store id
    have hall : takes store id (t :: rest)
        = (⟨200, .tokens entry.tokens, []⟩
            :: List.replicate (times.length - 1)
              ⟨404, .error "Token not found or expired", []⟩,
          tokenStore.delete store id) := by
      simp only [takes, hfirst, takes_of_absent _ rest hid hgone, hrest]
    rw [hall]
    refine ⟨rfl, ?_, ?_, ?_, rfl, hgone⟩
    · simp only [List.length_cons, List.length_replicate]; omega
    · simp [List.countP_cons, List.countP_replicate]
    · simp [List.countP_cons, List.countP_replicate]

theorem token_concurrent_takes_witness :
    (takes ([("zz", ⟨1, 5⟩), ("ab", ⟨7, 100⟩)] : TokenStore Nat) "ab" [3, 50, 100]).1
        = [⟨200, .tokens 7, []⟩, ⟨404, .error "Token not found or expired", []⟩,
            ⟨404, .error "Token not found or expired", []⟩]
      ∧ (takes ([("zz", ⟨1, 5⟩), ("ab", ⟨7, 100⟩)] : TokenStore Nat) "ab" [3, 50, 100]).2
        = [("zz", ⟨1, 5⟩)] :=
  have h := token_concurrent_takes ([("zz", ⟨1, 5⟩), ("ab", ⟨7, 100⟩)] : TokenStore Nat)
    "ab" ⟨7, 100⟩ [100, 3, 50] [3, 50, 100] (by decide) (by decide) (by decide) (by decide)
    (by decide)
  ⟨h.1, h.2.2.2.2.1⟩

/-! ## The callback: anti-forgery check and frame -/

theorem truthy_eq_false_iff (v : Option QueryValue) :
    truthy v = false ↔ v = none ∨ v = some (.str "") := by
  cases v with
  | none => simp [truthy]
  | some q =>
    cases q with
    | str s => simp [truthy]
    | nonString r => simp [truthy]

theorem stateCheckFails_iff (req : CallbackRequest) :
    stateCheckFails req = true ↔
      (req.code = none ∨ req.code = some (.str ""))
      ∨ (req.state = none ∨ req.state = some (.str ""))
      ∨ (req.cookies.join = none ∨ req.cookies.join = some (.str ""))
      ∨ strictEq req.state req.cookies.join = false := by
  simp only [stateCheckFails, Bool.or_eq_true, Bool.not_eq_true', truthy_eq_false_iff]
  tauto

/-- C5. The anti-forgery check of the callback. `GET /callback` answers 400
exactly when `code` is missing or empty, or `state` is missing or empty, or the
`oauth_state` cookie is missing or empty, or `state === cookie` is false (for two
strings: they differ). The condition mentions neither the configuration nor
the upstream, and when it holds the handler answers 400, sends nothing upstream
and returns the store untouched. -/
theorem callback_invalid_state (req : CallbackRequest) (env : Env)
    (fetch : HttpRequest → FetchResult τ) (randomBytes : Fin 12 → Fin 256) (now : Nat)
    (store : TokenStore τ) :
    ((callback req env fetch randomBytes now store).response.status = 400 ↔
      (req.code = none ∨ req.code = some (.str ""))
      ∨ (req.state = none ∨ req.state = some (.str ""))
      ∨ (req.cookies.join = none ∨ req.cookies.join = some (.str ""))
      ∨ strictEq req.state req.cookies.join = false)
    ∧ ((callback req env fetch randomBytes now store).response.status = 400 →
      callback req env fetch randomBytes now store
        = ⟨⟨400, .text "Invalid state or missing code", []⟩, store, [], []⟩)
    ∧ (∀ a b : String, strictEq (some (.str a)) (some (.str b)) = false ↔ a ≠ b) := by
  have key : (callback req env fetch randomBytes now store).response.status = 400 ↔
      stateCheckFails req = true := by
    constructor
    · intro h400
      rcases callback_cases req env fetch randomBytes now store with h | h | h | h
      · exact h.2.1
      · rw [h.1] at h400; exact absurd h400 (by decide)
      · rw [h.1] at h400; exact absurd h400 (by decide)
      · obtain ⟨_, bundle, hcb, -⟩ := h
        rw [hcb] at h400; simp at h400
    · intro hc
      rw [callback_of_check_fails req env fetch randomBytes now store hc]
  refine ⟨key.trans (stateCheckFails_iff req), ?_, ?_⟩
  · intro h400
    exact callback_of_check_fails req env fetch randomBytes now store (key.mp h400)
  · intro a b
    simp [strictEq]

/-- C6. The callback and the store. Whenever the callback answers 400, 500 or
502 the store it returns is the store it was given; the store changes only when
it answers 200 with the bridge page, and then by one `tokenStore.set`: the
upstream bundle is written under the generated id with `expiresAt = now + 90000`,
every other key keeps its binding, and the size grows by one when the id was
not a key before. After a passed check, a configuration variable that is
missing or empty gives 500 and an upstream response that is not `ok` gives
502. -/
theorem callback_store_frame (req : CallbackRequest) (env : Env)
    (fetch : HttpRequest → FetchResult τ) (randomBytes : Fin 12 → Fin 256) (now : Nat)
    (store : TokenStore τ) :
    (((callback req env fetch randomBytes now store).response.status = 400
        ∨ (callback req env fetch randomBytes now store).response.status = 500
        ∨ (callback req env fetch randomBytes now store).response.status = 502) →
      (callback req env fetch randomBytes now store).store = store)
    ∧ ((callback req env fetch randomBytes now store).store ≠ store →
      (callback req env fetch randomBytes now store).response
        = ⟨200, .html (bridgePage (generateId randomBytes)), []⟩)
    ∧ ((callback req env fetch randomBytes now store).response.status = 200 →
      ∃ bundle : τ,
        (callback req env fetch randomBytes now store).response
          = ⟨200, .html (bridgePage (generateId randomBytes)), []⟩
        ∧ (callback req env fetch randomBytes now store).store
          = tokenStore.set store (generateId randomBytes) ⟨bundle, now + 90000⟩
        ∧ tokenStore.get (callback req env fetch randomBytes now store).store
            (generateId randomBytes) = some ⟨bundle, now + 90000⟩
        ∧ (∀ k, generateId randomBytes ≠ k →
            tokenStore.get (callback req env fetch randomBytes now store).store k
              = tokenStore.get store k)
        ∧ (tokenStore.get store (generateId randomBytes) = none →
            tokenStore.size (callback req env fetch randomBytes now store).store
              = tokenStore.size store + 1))
    ∧ (stateCheckFails req = false →
        (envTruthy env.OAUTH_CLIENT_ID = false ∨ envTruthy env.OAUTH_CLIENT_SECRET = false
          ∨ envTruthy env.OAUTH_REDIRECT_URI = false) →
        (callback req env fetch randomBytes now store).response.status = 500)
    ∧ (stateCheckFails req = false →
        envTruthy env.OAUTH_CLIENT_ID = true → envTruthy env.OAUTH_CLIENT_SECRET = true →
        envTruthy env.OAUTH_REDIRECT_URI = true →
        ∀ text json, fetch (tokenExchangeRequest (renderValue req.code)
            (env.OAUTH_CLIENT_ID.getD "") (env.OAUTH_CLIENT_SECRET.getD "")
            (env.OAUTH_REDIRECT_URI.getD "")) = .response false (some text) json →
        (callback req env fetch randomBytes now store).response.status = 502) := by
  refine ⟨?_, ?_, ?_, ?_, ?_⟩
  · intro hst
    rcases callback_cases req env fetch randomBytes now store with h | h | h | h
    · exact h.2.2.1
    · exact h.2.2
    · exact h.2.2
    · obtain ⟨_, bundle, hcb, -⟩ := h
      rw [hcb] at hst
      rcases hst with h' | h' | h' <;> simp at h'
  · intro hne
    rcases callback_cases req env fetch randomBytes now store with h | h | h | h
    · exact absurd h.2.2.1 hne
    · exact absurd h.2.2 hne
    · exact absurd h.2.2 hne
    · obtain ⟨_, bundle, hcb, -⟩ := h
      rw [hcb]
  · intro h200
    rcases callback_cases req env fetch randomBytes now store with h | h | h | h
    · rw [h.1] at h200; exact absurd h200 (by decide)
    · rw [h.1] at h200; exact absurd h200 (by decide)
    · rw [h.1] at h200; exact absurd h200 (by decide)
    · obtain ⟨_, bundle, hcb, -⟩ := h
      refine ⟨bundle, ?_, ?_, ?_, ?_, ?_⟩
      · rw [hcb]
      · rw [hcb]
      · rw [hcb]; exact tokenStore.get_set_self _ _ _
      · intro k hk
        rw [hcb]; exact tokenStore.get_set_of_ne store _ hk
      · intro hfresh
        rw [hcb]; exact tokenStore.size_set_of_absent store _ _ hfresh
  · intro hc henv
    have hc2 := hc
    unfold stateCheckFails at hc2
    have he : (!envTruthy env.OAUTH_CLIENT_ID || !envTruthy env.OAUTH_CLIENT_SECRET
        || !envTruthy env.OAUTH_REDIRECT_URI) = true := by
      rcases henv with h | h | h <;> simp [h]
    simp only [callback, hc2, he, if_true, Bool.false_eq_true, if_false]
  · intro hc h1 h2 h3 text json hf
    have hc2 := hc
    unfold stateCheckFails at hc2
    simp only [callback, hc2, h1, h2, h3, hf, Bool.not_true, Bool.or_self, Bool.not_false,
      Bool.false_eq_true, if_false, if_true]

/-! ## The start route -/

/-- C7. The start route. When `client_id` or `redirect_uri` is missing or empty
the handler answers 400 and sets no cookie. Otherwise it answers 302 with a
redirect to the authorize URL whose query is the serialisation of
`response_type=code`, the `client_id` and `redirect_uri` of the request (the
string itself, or the text of an array or object), the `scope` of the request
(or `"openid profile"` when it is missing or empty), and a `state` which is the
very value set in the `oauth_state` cookie of the same response. -/
theorem start_contract (req : StartRequest) (randomBytes : Fin 16 → Fin 256)
    (serialize : List (String × String) → String) :
    (((req.client_id = none ∨ req.client_id = some (.str ""))
        ∨ (req.redirect_uri = none ∨ req.redirect_uri = some (.str ""))) →
      (start req randomBytes serialize : Response τ)
        = ⟨400, .text "Missing client_id or redirect_uri", []⟩)
    ∧ (¬ ((req.client_id = none ∨ req.client_id = some (.str ""))
        ∨ (req.redirect_uri = none ∨ req.redirect_uri = some (.str ""))) →
      ∃ clientId redirectUri scope state : String,
        (req.client_id = some (.str clientId) ∨ req.client_id = some (.nonString clientId))
        ∧ (req.redirect_uri = some (.str redirectUri)
            ∨ req.redirect_uri = some (.nonString redirectUri))
        ∧ (((req.scope = none ∨ req.scope = some (.str "")) ∧ scope = "openid profile")
            ∨ (req.scope = some (.str scope) ∧ scope ≠ "")
            ∨ req.scope = some (.nonString scope))
        ∧ state = generateState randomBytes
        ∧ (start req randomBytes serialize : Response τ)
          = ⟨302,
              .redirect ("https://apis.roblox.com/oauth/v1/authorize?" ++ serialize
                [("response_type", "code"), ("client_id", clientId),
                 ("redirect_uri", redirectUri), ("scope", scope), ("state", state)]),
              [⟨"oauth_state", state, true, "lax"⟩]⟩) := by
  constructor
  · intro h
    have hc : (!truthy req.client_id || !truthy req.redirect_uri) = true := by
      simp only [Bool.or_eq_true, Bool.not_eq_true', truthy_eq_false_iff]
      exact h
    simp only [start, hc, if_true]
  · intro h
    have hc : (!truthy req.client_id || !truthy req.redirect_uri) = false := by
      rcases Bool.eq_false_or_eq_true
        (!truthy req.client_id || !truthy req.redirect_uri) with hc | hc
      · simp only [Bool.or_eq_true, Bool.not_eq_true', truthy_eq_false_iff] at hc
        exact absurd hc h
      · exact hc
    have hval : ∀ v : Option QueryValue, ¬ (v = none ∨ v = some (.str "")) →
        (v = some (.str (renderValue v)) ∨ v = some (.nonString (renderValue v)))
          ∧ (v = some (.str (renderValue v)) → renderValue v ≠ "") := by
      intro v hv
      cases v with
      | none => exact absurd (Or.inl rfl) hv
      | some q =>
        cases q with
        | str t =>
          refine ⟨Or.inl rfl, fun _ ht => hv (Or.inr ?_)⟩
          simp only [renderValue, QueryValue.render] at ht
          rw [ht]
        | nonString r => exact ⟨Or.inr rfl, fun hq => by cases hq⟩
    have hcid := (hval req.client_id (fun hx => h (Or.inl hx))).1
    have hruri := (hval req.redirect_uri (fun hx => h (Or.inr hx))).1
    by_cases hs : req.scope = none ∨ req.scope = some (.str "")
    · have hts : truthy req.scope = false := (truthy_eq_false_iff _).mpr hs
      refine ⟨renderValue req.client_id, renderValue req.redirect_uri, "openid profile",
        generateState randomBytes, hcid, hruri, Or.inl ⟨hs, rfl⟩, rfl, ?_⟩
      simp only [start, hc, authorizeParams, hts, Bool.false_eq_true, if_false]
    · have hts : truthy req.scope = true := by
        rcases Bool.eq_false_or_eq_true (truthy req.scope) with ht | ht
        · exact ht
        · exact absurd ((truthy_eq_false_iff _).mp ht) hs
      have hsc := hval req.scope hs
      refine ⟨renderValue req.client_id, renderValue req.redirect_uri,
        renderValue req.scope, generateState randomBytes, hcid, hruri, ?_, rfl, ?_⟩
      · rcases hsc.1 with h1 | h1
        · exact Or.inr (Or.inl ⟨h1, hsc.2 h1⟩)
        · exact Or.inr (Or.inr h1)
      · simp only [start, hc, authorizeParams, hts, Bool.false_eq_true, if_false, if_true]

/-! ## The size of the id space -/

theorem idSpace_card : idSpace.card = 2 ^ 96 := by
  rw [idSpace, Finset.card_image_of_injective _ generateId_injective, Finset.card_univ]
  simp only [Fintype.card_pi, Fintype.card_fin, Finset.prod_const, Finset.card_univ]
  norm_num

theorem stateSpace_card : stateSpace.card = 2 ^ 128 := by
  rw [stateSpace, Finset.card_image_of_injective _ generateState_injective, Finset.card_univ]
  simp only [Fintype.card_pi, Fintype.card_fin, Finset.prod_const, Finset.card_univ]
  norm_num

theorem generateId_mem_idSpace (randomBytes : Fin 12 → Fin 256) :
    generateId randomBytes ∈ idSpace := by
  unfold idSpace
  rw [Finset.mem_image]
  exact ⟨randomBytes, by simp, rfl⟩

/-- C8, as stated, fails: an id has 24 hexadecimal characters, not 32, and the
id space does not have `2^128` elements. -/
theorem generateId_not_128_bits :
    (generateId sampleBytes).length = 24 ∧ (generateId sampleBytes).length ≠ 32
      ∧ idSpace.card ≠ 2 ^ 128 := by
  refine ⟨generateId_length _, ?_, ?_⟩
  · rw [generateId_length]; decide
  · rw [idSpace_card]; norm_num

/-- C8, amended. `generateId` is an injective encoding of 12 random bytes: an
id has 24 hexadecimal characters and the id space has `2^96` elements, fewer
than the `2^128` state tokens of `generateState` (16 bytes, 32 characters); the
callback stores its entry under such an id. -/
theorem generateId_entropy :
    Function.Injective generateId
      ∧ (∀ randomBytes, (generateId randomBytes).length = 24)
      ∧ idSpace.card = 2 ^ 96
      ∧ Function.Injective generateState
      ∧ (∀ randomBytes, (generateState randomBytes).length = 32)
      ∧ stateSpace.card = 2 ^ 128
      ∧ idSpace.card < stateSpace.card
      ∧ (∀ (req : CallbackRequest) (env : Env) (fetch : HttpRequest → FetchResult τ)
          (randomBytes : Fin 12 → Fin 256) (now : Nat) (store : TokenStore τ),
          (callback req env fetch randomBytes now store).store ≠ store →
          generateId randomBytes ∈ idSpace
            ∧ (tokenStore.get (callback req env fetch randomBytes now store).store
                (generateId randomBytes)).isSome = true) := by
  refine ⟨generateId_injective, generateId_length, idSpace_card, generateState_injective,
    generateState_length, stateSpace_card, ?_, ?_⟩
  · rw [idSpace_card, stateSpace_card]; norm_num
  · intro req env fetch randomBytes now store hne
    constructor
    · exact generateId_mem_idSpace randomBytes
    · rcases callback_cases req env fetch randomBytes now store with h | h | h | h
      · exact absurd h.2.2.1 hne
      · exact absurd h.2.2 hne
      · exact absurd h.2.2 hne
      · obtain ⟨_, bundle, hcb, -⟩ := h
        rw [hcb]
        simp [tokenStore.get_set_self]

/-! ## The friends lookup -/

theorem digitChar_isDigit : ∀ d : Fin 10, (Nat.digitChar d.val).isDigit = true := by
  decide

theorem toDigitsCore_isDigit (fuel : Nat) : ∀ (n : Nat) (ds : List Char),
    (∀ c ∈ ds, c.isDigit = true) → ∀ c ∈ Nat.toDigitsCore 10 fuel n ds, c.isDigit = true := by
  induction fuel with
  | zero => intro n ds hds c hc; exact hds c (by simpa [Nat.toDigitsCore] using hc)
  | succ fuel ih =>
    intro n ds hds c hc
    have hd : (Nat.digitChar (n % 10)).isDigit = true :=
      digitChar_isDigit ⟨n % 10, Nat.mod_lt _ (by decide)⟩
    have hcons : ∀ c ∈ Nat.digitChar (n % 10) :: ds, c.isDigit = true := by
      intro c hc
      rcases List.mem_cons.mp hc with h | h
      · rw [h]; exact hd
      · exact hds c h
    simp only [Nat.toDigitsCore] at hc
    split at hc
    · exact hcons c hc
    · exact ih _ _ hcons c hc

/-- Every character of the decimal text of a natural number is a digit. -/
theorem toString_nat_isDigit (n : Nat) : ∀ c ∈ (toString n).data, c.isDigit = true := by
  intro c hc
  have hrepr : (toString n).data = Nat.toDigits 10 n := rfl
  rw [hrepr] at hc
  exact toDigitsCore_isDigit _ _ _ (by simp) c hc

theorem getFriends_of_invalid (userId : String) (fetch : String → FriendsFetch τ)
    (h : (!isFinite (parseInt userId) || leZero (parseInt userId)) = true) :
    getFriendsForUserId userId fetch = ⟨[], .error .invalidUserId⟩ := by
  simp only [getFriendsForUserId, h, if_true]

theorem getFriends_of_valid (userId : String) (fetch : String → FriendsFetch τ)
    (h : (!isFinite (parseInt userId) || leZero (parseInt userId)) = false) :
    (getFriendsForUserId userId fetch).requested = [friendsUrl (parseInt userId)]
      ∧ (getFriendsForUserId userId fetch).result ≠ .error .invalidUserId := by
  simp only [getFriendsForUserId, h, Bool.false_eq_true, if_false]
  cases fetch (friendsUrl (parseInt userId)) with
  | rejected => simp
  | response ok statusText json =>
    cases ok with
    | false => simp
    | true =>
      cases json with
      | none => simp
      | some data => cases data <;> simp

/-- C4, the code at the failing inputs: `"123abc"` and `"12/../x"` are not
integer literals, yet the call does not throw on them and requests the friends
of user 123 and of user 12. -/
theorem getFriends_accepts_numeric_prefix :
    (getFriendsForUserId "123abc" sampleFriendsFetch).requested
        = ["https://friends.roblox.com/v1/users/123/friends"]
      ∧ (getFriendsForUserId "123abc" sampleFriendsFetch).result = .ok [5]
      ∧ (getFriendsForUserId "12/../x" sampleFriendsFetch).requested
        = ["https://friends.roblox.com/v1/users/12/friends"]
      ∧ (getFriendsForUserId "12/../x" sampleFriendsFetch).result = .ok [5] := by
  refine ⟨by decide, rfl, by decide, rfl⟩

theorem foldl_digits (ds : List Char) (acc : Nat) :
    ds.foldl (fun acc c => acc * 10 + (c.toNat - 48)) acc
      = acc * 10 ^ ds.length
        + Nat.ofDigits 10 (ds.reverse.map (fun c => c.toNat - 48)) := by
  induction ds generalizing acc with
  | nil => simp
  | cons c ds ih =>
    rw [List.foldl_cons, ih, List.reverse_cons, List.map_append, Nat.ofDigits_append]
    simp only [List.map_cons, List.map_nil, Nat.ofDigits_singleton, List.length_map,
      List.length_reverse, List.length_cons]
    ring

/-- The value `parseInt` reads from a run of digits is the number the digits
denote in base 10. -/
theorem digitsValue_eq_ofDigits (ds : List Char) :
    digitsValue ds = Nat.ofDigits 10 (ds.reverse.map (fun c => c.toNat - 48)) := by
  simp [digitsValue, foldl_digits]

theorem toFloat64_of_lt {m : Nat} (h : m < 2 ^ 53) : toFloat64 m = some m := by
  unfold toFloat64
  rw [if_pos h]

/-- A positive result of `parseInt` comes from an input made of white space, an
optional `+`, a non-empty run of digits and a rest that does not start with a
digit; the result is the float64 nearest to the number the digits denote. -/
theorem parseInt_pos (s : String) (v : Int) (h : parseInt s = .int v) (hv : 0 < v) :
    ∃ (ws sign digits rest : List Char) (n : Nat),
      s.data = ws ++ sign ++ digits ++ rest
      ∧ (∀ c ∈ ws, isStrWhiteSpace c = true)
      ∧ (sign = [] ∨ sign = ['+'])
      ∧ digits ≠ [] ∧ (∀ c ∈ digits, c.isDigit = true)
      ∧ (∀ c, rest.head? = some c → c.isDigit = false)
      ∧ toFloat64 (Nat.ofDigits 10 (digits.reverse.map (fun c => c.toNat - 48))) = some n
      ∧ v = (n : Int) := by
  unfold parseInt at h
  generalize htr : s.data.dropWhile isStrWhiteSpace = trimmed at h
  have hdata : s.data = s.data.takeWhile isStrWhiteSpace ++ trimmed := by
    rw [← htr, List.takeWhile_append_dropWhile]
  have hws : ∀ c ∈ s.data.takeWhile isStrWhiteSpace, isStrWhiteSpace c = true :=
    fun c hc => List.mem_takeWhile_imp hc
  simp only at h
  generalize hun : (if trimmed.head? = some '-' ∨ trimmed.head? = some '+'
    then trimmed.tail else trimmed) = unsigned at h
  have hsplit : unsigned = unsigned.takeWhile Char.isDigit ++ unsigned.dropWhile Char.isDigit :=
    (List.takeWhile_append_dropWhile _ _).symm
  have hdig : ∀ c ∈ unsigned.takeWhile Char.isDigit, c.isDigit = true :=
    fun c hc => List.mem_takeWhile_imp hc
  have hrest : ∀ c, (unsigned.dropWhile Char.isDigit).head? = some c → c.isDigit = false := by
    intro c hc
    have := List.head?_dropWhile_not Char.isDigit unsigned
    rw [hc] at this
    simpa using this
  by_cases hempty : unsigned.takeWhile Char.isDigit = []
  · simp [hempty] at h
  · rw [if_neg hempty] at h
    cases hf : toFloat64 (digitsValue (unsigned.takeWhile Char.isDigit)) with
    | none => rw [hf] at h; simp at h
    | some d =>
      rw [hf] at h
      simp only [JSNumber.int.injEq] at h
      rw [digitsValue_eq_ofDigits] at hf
      by_cases hneg : trimmed.head? = some '-'
      · simp only [hneg, decide_True, if_true] at h
        omega
      · simp only [hneg, decide_False, Bool.false_eq_true, if_false] at h
        by_cases hplus : trimmed.head? = some '+'
        · have htrim : trimmed = ['+'] ++ unsigned := by
            cases trimmed with
            | nil => simp at hplus
            | cons c rest =>
              simp only [List.head?_cons, Option.some.injEq] at hplus
              simp [hplus] at hun
              simp [hplus, hun]
          refine ⟨_, ['+'], _, _, d, ?_, hws, Or.inr rfl, hempty, hdig, hrest, hf, h.symm⟩
          rw [List.append_assoc, List.append_assoc, ← hsplit, ← htrim]
          exact hdata
        · have htrim : trimmed = unsigned := by
            simpa [hneg, hplus] using hun
          refine ⟨_, [], _, _, d, ?_, hws, Or.inl rfl, hempty, hdig, hrest, hf, h.symm⟩
          rw [List.append_nil, List.append_assoc, ← hsplit, ← htrim]
          exact hdata

theorem stripTrailingZeros_subset (ds : List Char) :
    ∀ c ∈ stripTrailingZeros ds, c ∈ ds := by
  intro c hc
  unfold stripTrailingZeros at hc
  rw [List.mem_reverse] at hc
  exact List.mem_reverse.mp ((List.dropWhile_sublist _).subset hc)

theorem exponentText_chars (ds : List Char) (hds : ∀ c ∈ ds, c.isDigit = true) :
    ∀ c ∈ exponentText ds, numberChar c := by
  have hexp : ∀ c ∈ Nat.toDigits 10 (ds.length - 1), c.isDigit = true :=
    toDigitsCore_isDigit _ _ _ (by simp)
  have hstrip : ∀ c ∈ stripTrailingZeros ds, c.isDigit = true :=
    fun c hc => hds c (stripTrailingZeros_subset ds c hc)
  intro c hc
  unfold exponentText at hc
  split at hc
  · exact Or.inl (hds c hc)
  · next d hd =>
    have hdd := hstrip d (by rw [hd]; simp)
    simp only [List.mem_cons] at hc
    rcases hc with h | h | h | h
    · exact Or.inl (h ▸ hdd)
    · exact Or.inr (Or.inr (Or.inl h))
    · exact Or.inr (Or.inr (Or.inr h))
    · exact Or.inl (hexp c h)
  · next d more _ hd =>
    have hall : ∀ c ∈ d :: more, c.isDigit = true := by rw [← hd]; exact hstrip
    simp only [List.mem_cons, List.mem_append] at hc
    rcases hc with (h | h | h) | h | h | h
    · exact Or.inl (h ▸ hall d (by simp))
    · exact Or.inr (Or.inl h)
    · exact Or.inl (hall c (by simp [h]))
    · exact Or.inr (Or.inr (Or.inl h))
    · exact Or.inr (Or.inr (Or.inr h))
    · exact Or.inl (hexp c h)

theorem natText_chars (x : Nat) : ∀ c ∈ (natText x).data, numberChar c := by
  intro c hc
  unfold natText at hc
  split at hc
  · exact Or.inl (toString_nat_isDigit x c hc)
  · unfold formatNat at hc
    split at hc
    · exact Or.inl (toDigitsCore_isDigit _ _ _ (by simp) c hc)
    · exact exponentText_chars _ (toDigitsCore_isDigit _ _ _ (by simp)) c hc

theorem natText_of_safe {x : Nat} (h : x ≤ maxSafeInteger) : natText x = toString x := by
  have : x < 2 ^ 53 := by unfold maxSafeInteger at h; omega
  unfold natText
  rw [if_pos this]

theorem friendsUrl_int (n : Nat) :
    friendsUrl (.int (n : Int))
      = "https://friends.roblox.com/v1/users/" ++ natText n ++ "/friends" := rfl

/-- Passing the validation means that `parseInt` gave a positive finite number. -/
theorem valid_iff (userId : String) :
    (!isFinite (parseInt userId) || leZero (parseInt userId)) = false ↔
      ∃ v : Int, parseInt userId = .int v ∧ 0 < v := by
  cases parseInt userId with
  | nan => simp [isFinite, leZero]
  | infinity negative => simp [isFinite, leZero]
  | int v => simp [isFinite, leZero]

set_option exponentiation.threshold 1100 in
/-- C10, as stated, fails beyond `Number.MAX_SAFE_INTEGER`. The input
`"9007199254740993"` passes the validation and the URL names user
`9007199254740992`, not the integer of the digits; the input
`"1234500000000000000000"` passes it and the segment is `1.2345e+21`, which
contains `.`. -/
theorem friends_url_beyond_safe :
    (getFriendsForUserId "9007199254740993" sampleFriendsFetch).requested
        = ["https://friends.roblox.com/v1/users/9007199254740992/friends"]
      ∧ (getFriendsForUserId "1234500000000000000000" sampleFriendsFetch).requested
        = ["https://friends.roblox.com/v1/users/1.2345e+21/friends"] := by
  decide

/-- C10, amended. No raw input reaches the request path. For every `userId` on
which the validation does not throw, the input is white space, an optional `+`,
a non-empty run of decimal digits and a rest that does not start with a digit;
`parseInt(userId, 10)` is `n`, the float64 nearest to the integer of that run,
`n` is positive, and the one URL requested is
`'https://friends.roblox.com/v1/users/' + n + '/friends'`. When the integer of
the run is at most `Number.MAX_SAFE_INTEGER`, `n` is that integer and the
segment is its decimal digits. In every case the segment is made of digits,
`.`, `e` and `+` only, so it has no `/`, `?`, `#` or `%`, and every input with
the same parsed number requests the same URL. -/
theorem friends_url_sanitised (userId : String) (fetch : String → FriendsFetch τ)
    (hvalid : (getFriendsForUserId userId fetch).result ≠ .error .invalidUserId) :
    ∃ (ws sign digits rest : List Char) (n : Nat),
      userId.data = ws ++ sign ++ digits ++ rest
      ∧ (∀ c ∈ ws, isStrWhiteSpace c = true)
      ∧ (sign = [] ∨ sign = ['+'])
      ∧ digits ≠ [] ∧ (∀ c ∈ digits, c.isDigit = true)
      ∧ (∀ c, rest.head? = some c → c.isDigit = false)
      ∧ toFloat64 (Nat.ofDigits 10 (digits.reverse.map (fun c => c.toNat - 48))) = some n
      ∧ 0 < n
      ∧ parseInt userId = .int (n : Int)
      ∧ (getFriendsForUserId userId fetch).requested
        = ["https://friends.roblox.com/v1/users/" ++ natText n ++ "/friends"]
      ∧ (Nat.ofDigits 10 (digits.reverse.map (fun c => c.toNat - 48)) ≤ maxSafeInteger →
          n = Nat.ofDigits 10 (digits.reverse.map (fun c => c.toNat - 48))
          ∧ natText n = toString n
          ∧ ∀ c ∈ (natText n).data, c.isDigit = true)
      ∧ (∀ c ∈ (natText n).data,
          (c.isDigit = true ∨ c = '.' ∨ c = 'e' ∨ c = '+')
          ∧ c ≠ '/' ∧ c ≠ '?' ∧ c ≠ '#' ∧ c ≠ '%')
      ∧ (∀ (other : String) (fetch' : String → FriendsFetch τ),
          parseInt other = parseInt userId →
          (getFriendsForUserId other fetch').requested
            = ["https://friends.roblox.com/v1/users/" ++ natText n ++ "/friends"]) := by
  have hv : (!isFinite (parseInt userId) || leZero (parseInt userId)) = false := by
    rcases Bool.eq_false_or_eq_true
      (!isFinite (parseInt userId) || leZero (parseInt userId)) with hv | hv
    · exact absurd (by rw [getFriends_of_invalid userId fetch hv]) hvalid
    · exact hv
  obtain ⟨v, hp, hpos⟩ := (valid_iff userId).mp hv
  obtain ⟨ws, sign, digits, rest, n, hdata, hws, hsign, hne, hdig, hrest, hf, hvn⟩ :=
    parseInt_pos userId v hp hpos
  subst hvn
  have hreq := (getFriends_of_valid userId fetch hv).1
  rw [hp, friendsUrl_int] at hreq
  refine ⟨ws, sign, digits, rest, n, hdata, hws, hsign, hne, hdig, hrest, hf,
    by exact_mod_cast hpos, hp, hreq, ?_, ?_, ?_⟩
  · intro hsafe
    have hlt : Nat.ofDigits 10 (digits.reverse.map (fun c => c.toNat - 48)) < 2 ^ 53 := by
      unfold maxSafeInteger at hsafe; omega
    rw [toFloat64_of_lt hlt] at hf
    have hn : n = Nat.ofDigits 10 (digits.reverse.map (fun c => c.toNat - 48)) :=
      (Option.some.inj hf).symm
    have hn' : n ≤ maxSafeInteger := by rw [hn]; exact hsafe
    refine ⟨hn, natText_of_safe hn', ?_⟩
    rw [natText_of_safe hn']
    exact toString_nat_isDigit n
  · intro c hc
    have hchar := natText_chars n c hc
    refine ⟨hchar, ?_, ?_, ?_, ?_⟩ <;>
      (intro h; rw [h] at hchar
       rcases hchar with h' | h' | h' | h' <;> exact absurd h' (by decide))
  · intro other fetch' hsame
    have hv' : (!isFinite (parseInt other) || leZero (parseInt other)) = false := by
      rw [hsame]; exact hv
    rw [(getFriends_of_valid other fetch' hv').1, hsame, hp, friendsUrl_int]

theorem friends_url_sanitised_witness :
    (getFriendsForUserId "123abc" sampleFriendsFetch).requested
        = ["https://friends.roblox.com/v1/users/123/friends"]
      ∧ (getFriendsForUserId "123" sampleFriendsFetch).requested
        = ["https://friends.roblox.com/v1/users/123/friends"] := by
  obtain ⟨_, _, _, _, n, _, _, _, _, _, _, _, _, hp, hreq, _, _, hsame⟩ :=
    friends_url_sanitised "123abc" sampleFriendsFetch
      (getFriends_of_valid "123abc" sampleFriendsFetch (by decide)).2
  have h123 : parseInt "123abc" = .int 123 := by decide
  rw [h123] at hp
  have hn : n = 123 := by
    simp only [JSNumber.int.injEq] at hp
    omega
  subst hn
  have htext : "https://friends.roblox.com/v1/users/" ++ natText 123 ++ "/friends"
      = "https://friends.roblox.com/v1/users/123/friends" := by decide
  rw [htext] at hreq hsame
  exact ⟨hreq, hsame "123" sampleFriendsFetch (by decide)⟩

end FriendTracker
